import Mathlib

/-!
Verification of the column-computation engine specification of the
sims_catUtils repository.

The repository composes catalog classes out of capability mixins.  Each
derived output column is produced by a getter; a getter may request other
columns, forming a dependency graph.  The chunk evaluator resolves the
transitive closure of the requested columns, invokes exactly the needed
getters once per chunk (with an optional per-lifetime cache), stores all
sibling outputs of a compound getter atomically, and drops rows whose
`cannot_be_null` columns hold a NaN sentinel.

The engine itself (`lsst.sims.catalogs.measures.instance.InstanceCatalog`
and the photometry mixins) is an external dependency of this repository:
only its callers, mixins and tests ship here.  Definitions below that
model the engine are therefore modelled from the specification text; the
definitions taken from code that does ship in the repository
(`FrozenSNCat.get_snparams`, `testDefaults.get_parallax`, the rewrite of
`dbConnection.py`) are translated directly from that source.

NaN sentinels are modelled by `Option`: `none` is NaN, `some x` a real
value.
-/

namespace CatSim

/-- Column names are strings, as in the source. -/
abbrev Col := String

/-- A cell value: `none` models the NaN / null sentinel. -/
abbrev Val (α : Type) := Option α

/-- Modelled from the spec: caching policies of a getter
(`per-chunk | per-lifetime`, section 4.1 producer descriptors). -/
inductive CachePolicy : Type where
  | perChunk : CachePolicy
  | perLifetime : CachePolicy
deriving DecidableEq, Repr

/-- Modelled from the spec: a producer descriptor of a derived column
(section 4.1).  A getter owns a set of sibling output columns produced
atomically by one invocation, a static per-output dependency list (the
columns its body requests when that output is needed, section 4.2 permits
static declaration), a cache policy, and the computation itself.  The
computation receives a column-lookup capability bound to the current
chunk and the list of its outputs that are actually needed (the `indices`
framework of the photometry getters), and returns one value array per
declared output. -/
structure Getter (α : Type) where
  gid : Nat
  outputs : List Col
  deps : Col → List Col
  policy : CachePolicy
  run : (Col → List (Val α)) → List Col → List (List (Val α))

/-- Modelled from the spec: a catalog type (section 3 data model): the
registered getters of its capability mixins, the native data-source
columns, the requested output columns and the `cannot_be_null` list. -/
structure CatalogType (α : Type) where
  getters : List (Getter α)
  nativeColumns : List Col
  cannotBeNull : List Col

variable {α : Type}

/-- Modelled from the spec: column resolution.  A column is derived when
some registered getter declares it as an output; the derived getter is
preferred over an identically named native column (section 4.1 edge
case: mixins override raw storage). -/
def findGetter (cat : CatalogType α) (c : Col) : Option (Getter α) :=
  cat.getters.find? (fun g => g.outputs.contains c)

/-- The id of the producer getter of a column, if the column is derived. -/
def producerGid (cat : CatalogType α) (c : Col) : Option Nat :=
  (findGetter cat c).map Getter.gid

/-- The direct dependencies of a column: the columns its producer getter
requests when this output is needed; a native column has none. -/
def colDeps (cat : CatalogType α) (c : Col) : List Col :=
  match findGetter cat c with
  | some g => g.deps c
  | none => []

/-- One dependency edge of the column graph. -/
def DepStep (cat : CatalogType α) (a b : Col) : Prop :=
  b ∈ colDeps cat a

/-- The declarative reading of the claim: a column is needed exactly when
it lies in the reflexive-transitive closure of the dependency relation
starting from a requested column. -/
def NeededCol (cat : CatalogType α) (R : List Col) (c : Col) : Prop :=
  ∃ r ∈ R, Relation.ReflTransGen (DepStep cat) r c

/-- A finite universe of columns relevant to a resolution: the requested
columns, the native columns, every getter output and every declared
dependency. -/
def colUniverse (cat : CatalogType α) (R : List Col) : Finset Col :=
  (R ++ cat.nativeColumns ++
    cat.getters.flatMap (fun g => g.outputs ++ g.outputs.flatMap g.deps)).toFinset

/-- The direct dependencies of a set of columns. -/
def depsOf (cat : CatalogType α) (S : Finset Col) : Finset Col :=
  S.biUnion (fun c => (colDeps cat c).toFinset)

/-- Modelled from the spec: the dependency resolver (section 4.2)
computes the closure of the requested set by repeatedly adding the
dependencies of already-needed columns until a fixed point, bounded by
the universe.  Fuel-based so that the resolver is executable; the fuel
`U.card + 1` is proven sufficient below. -/
def closeFuel (cat : CatalogType α) (U : Finset Col) : Nat → Finset Col → Finset Col
  | 0, S => S
  | n + 1, S =>
    let T := depsOf cat S ∩ U
    if T ⊆ S then S else closeFuel cat U n (S ∪ T)

/-- The set of needed columns for a requested set `R`: the resolver run
with sufficient fuel.  This is also the engine's
`_actually_calculated_columns`. -/
def neededSet (cat : CatalogType α) (R : List Col) : Finset Col :=
  closeFuel cat (colUniverse cat R) ((colUniverse cat R).card + 1) R.toFinset

/-- Association-list lookup (first binding wins, as a Python attribute /
dict lookup does). -/
def lookupA {β : Type} (m : List (Col × β)) (c : Col) : Option β :=
  (m.find? (fun p => p.1 == c)).map Prod.snd

/-- Association-list lookup keyed by getter id. -/
def lookupC {β : Type} (m : List (Nat × β)) (i : Nat) : Option β :=
  (m.find? (fun p => p.1 == i)).map Prod.snd

/-- Modelled from the spec: the mutable state threaded through a whole
catalog run (section 4.3): the per-lifetime cache living on the catalog
instance, and — for the invocation-tracking instrumentation the tests
use — the log of getter invocations, in order. -/
structure RunState (α : Type) where
  cache : List (Nat × List (List (Val α)))
  log : List Nat

/-- The state at catalog construction: empty cache, nothing invoked. -/
def initState : RunState α := ⟨[], []⟩

/-- A chunk of native data from the data source: one value array per
native column. -/
abbrev ChunkMap (α : Type) := List (Col × List (Val α))

/-- `g` must be invoked for requested set `R`: `g` is the resolved
producer of some needed column. -/
def neededBy (cat : CatalogType α) (R : List Col) (g : Getter α) : Bool :=
  g.outputs.any (fun c =>
    decide (c ∈ neededSet cat R) && (producerGid cat c == some g.gid))

/-- Modelled from the spec: the resolver's output (section 4.2), the
ordered list of producer invocations: exactly the getters producing a
needed column, in stable registration order. -/
def invocationList (cat : CatalogType α) (R : List Col) : List (Getter α) :=
  cat.getters.filter (neededBy cat R)

/-- The column-lookup capability handed to a getter: any column already
materialised in the chunk map. -/
def getterInputs (m : ChunkMap α) : Col → List (Val α) :=
  fun c => (lookupA m c).getD []

/-- Invoke a getter on the current chunk, passing it the subset of its
outputs that is actually needed (the `indices` framework: siblings
outside the closure are not computed, merely filled with the NaN
sentinel by the getter). -/
def runNeeded (cat : CatalogType α) (R : List Col) (g : Getter α) (m : ChunkMap α) :
    List (List (Val α)) :=
  g.run (getterInputs m) (g.outputs.filter (fun c => decide (c ∈ neededSet cat R)))

/-- Modelled from the spec: one step of the chunk evaluator
(section 4.3, steps 1–3).  A per-lifetime getter whose result is cached
is skipped and its cached sibling outputs are reused; otherwise the
getter is invoked once and all of its sibling outputs are stored into
the chunk map simultaneously. -/
def evalGetter (cat : CatalogType α) (R : List Col)
    (acc : RunState α × ChunkMap α) (g : Getter α) : RunState α × ChunkMap α :=
  match g.policy with
  | .perLifetime =>
      match lookupC acc.1.cache g.gid with
      | some outs => (acc.1, g.outputs.zip outs ++ acc.2)
      | none =>
          let outs := runNeeded cat R g acc.2
          (⟨(g.gid, outs) :: acc.1.cache, acc.1.log ++ [g.gid]⟩,
            g.outputs.zip outs ++ acc.2)
  | .perChunk =>
      let outs := runNeeded cat R g acc.2
      (⟨acc.1.cache, acc.1.log ++ [g.gid]⟩, g.outputs.zip outs ++ acc.2)

/-- Materialise only the required native columns of the chunk: a native
column shadowed by a derived getter is never read from the data source
(section 4.1 edge case). -/
def nativeInit (cat : CatalogType α) (R : List Col) (data : ChunkMap α) : ChunkMap α :=
  data.filter (fun p => decide (p.1 ∈ neededSet cat R) && (findGetter cat p.1).isNone)

/-- Modelled from the spec: evaluate one chunk — materialise needed
native columns, then run the resolved invocation list in order. -/
def evalChunkMap (cat : CatalogType α) (R : List Col) (data : ChunkMap α)
    (st : RunState α) : RunState α × ChunkMap α :=
  (invocationList cat R).foldl (evalGetter cat R) (st, nativeInit cat R data)

/-- The value of column `c` at row `i` of the evaluated chunk map;
absent columns and rows read as the NaN sentinel. -/
def colVal (m : ChunkMap α) (c : Col) (i : Nat) : Val α :=
  ((lookupA m c).getD []).getD i none

/-- Row `i` survives the null filter: no `cannot_be_null` column holds
the NaN sentinel there. -/
def rowOK (cat : CatalogType α) (m : ChunkMap α) (i : Nat) : Bool :=
  cat.cannotBeNull.all (fun c => (colVal m c i).isSome)

/-- Modelled from the spec: assemble the chunk's output rows in
encounter order, excluding entirely the rows in which a
`cannot_be_null` column holds the NaN sentinel (section 4.3, step 4). -/
def assembleRows (cat : CatalogType α) (R : List Col) (m : ChunkMap α) (n : Nat) :
    List (List (Val α)) :=
  ((List.range n).filter (rowOK cat m)).map (fun i => R.map (fun c => colVal m c i))

/-- Evaluate one chunk of `n` rows to its written output rows and the
updated run state. -/
def evalChunk (cat : CatalogType α) (R : List Col) (n : Nat) (data : ChunkMap α)
    (st : RunState α) : List (List (Val α)) × RunState α :=
  ((assembleRows cat R (evalChunkMap cat R data st).2 n), (evalChunkMap cat R data st).1)

/-- Modelled from the spec: a whole catalog run — the chunks are pulled
one after the other from the data source, each fully evaluated before
the next, the per-lifetime cache threaded through (section 5). -/
def runCatalog (cat : CatalogType α) (R : List Col)
    (chunks : List (Nat × ChunkMap α)) : List (List (Val α)) × RunState α :=
  chunks.foldl
    (fun acc ch =>
      (acc.1 ++ (evalChunk cat R ch.1 ch.2 acc.2).1, (evalChunk cat R ch.1 ch.2 acc.2).2))
    ([], initState)

/-! Concrete catalog instances mirroring the repository's test catalogs. -/

/-- The six LSST band letters. -/
def lsstBands : List Col := ["u", "g", "r", "i", "z", "y"]

/-- Modelled from the spec: the compound magnitude getter of the
`PhotometryStars` mixin as exercised by the lazy-columns tests
(`testPhotometricIndices.py`): six sibling magnitude columns computed
from the star's SED data, with only the needed siblings actually
calculated and the rest filled with NaN. -/
def starMagsGetter : Getter ℚ :=
  { gid := 1
    outputs := lsstBands.map (fun b => "lsst_" ++ b)
    deps := fun _ => ["magNorm", "sedFilename"]
    policy := .perChunk
    run := fun f mask =>
      (lsstBands.map (fun b => "lsst_" ++ b)).map (fun c =>
        if mask.contains c then (f "magNorm").map (Option.map (fun m => m + 1))
        else (f "magNorm").map (fun _ => none)) }

/-- Modelled from the spec: the compound uncertainty getter of
`PhotometryStars`: each `sigma_lsst_x` depends on the corresponding
magnitude column `lsst_x` only. -/
def starSigmaGetter : Getter ℚ :=
  { gid := 2
    outputs := lsstBands.map (fun b => "sigma_lsst_" ++ b)
    deps := fun c => [c.drop 6]
    policy := .perChunk
    run := fun f mask =>
      (lsstBands.map (fun b => "sigma_lsst_" ++ b)).map (fun c =>
        if mask.contains c then (f (c.drop 6)).map (Option.map (fun m => m / 10))
        else (f (c.drop 6)).map (fun _ => none)) }

/-- The `uStarCatalog` of `testPhotometricIndices.py`: requests only
`raJ2000`, `decJ2000`, `lsst_u` and `sigma_lsst_u`. -/
def uStarCat : CatalogType ℚ :=
  { getters := [starMagsGetter, starSigmaGetter]
    nativeColumns := ["id", "raJ2000", "decJ2000", "sedFilename", "magNorm", "galacticAv"]
    cannotBeNull := [] }

/-- The requested columns of the u-band star catalog. -/
def uStarR : List Col := ["raJ2000", "decJ2000", "lsst_u", "sigma_lsst_u"]

/-- A two-row native data chunk for the star catalog. -/
def uStarData : ChunkMap ℚ :=
  [("id", [some 0, some 1]),
   ("raJ2000", [some (1 / 2), some (3 / 4)]),
   ("decJ2000", [some (-1 / 3), some (1 / 5)]),
   ("sedFilename", [some 1, some 2]),
   ("magNorm", [some 20, some 21]),
   ("galacticAv", [some (1 / 10), some (1 / 10)])]

/-- From the source (`cartoonStarsOnlyI.get_magnitudes` in
`CatalogTestUtils.py`): a single compound getter producing the five
cartoon magnitudes `cartoon_u` … `cartoon_z` from `magNorm`. -/
def cartoonMagsGetter : Getter ℚ :=
  { gid := 1
    outputs := ["cartoon_u", "cartoon_g", "cartoon_r", "cartoon_i", "cartoon_z"]
    deps := fun _ => ["magNorm"]
    policy := .perChunk
    run := fun f mask =>
      ["cartoon_u", "cartoon_g", "cartoon_r", "cartoon_i", "cartoon_z"].map (fun c =>
        if mask.contains c then f "magNorm"
        else (f "magNorm").map (fun _ => none)) }

/-- The `cartoonStarsIZ` catalog: requests the two sibling outputs
`cartoon_i` and `cartoon_z` of the one compound getter. -/
def cartoonIZCat : CatalogType ℚ :=
  { getters := [cartoonMagsGetter]
    nativeColumns := ["id", "raJ2000", "decJ2000", "magNorm"]
    cannotBeNull := [] }

/-- The requested columns of the IZ cartoon catalog. -/
def cartoonIZR : List Col := ["id", "cartoon_i", "cartoon_z"]

/-- A three-row native data chunk for the cartoon catalog. -/
def cartoonData : ChunkMap ℚ :=
  [("id", [some 0, some 1, some 2]),
   ("raJ2000", [some 1, some 2, some 3]),
   ("decJ2000", [some 4, some 5, some 6]),
   ("magNorm", [some 17, some 18, some 19])]

/-- Modelled from the spec: a per-lifetime-cached getter in the style of
`cartoonPhotometryStars.get_magnitudes` (which loads its bandpass table
from storage only on the first chunk) and
`SNFunctionality.lsstBandpassDict` (a lazy property computed once per
catalog instance). -/
def lifetimeMagsGetter : Getter ℚ :=
  { gid := 1
    outputs := ["cartoon_u", "cartoon_g", "cartoon_r", "cartoon_i", "cartoon_z"]
    deps := fun _ => ["magNorm"]
    policy := .perLifetime
    run := fun f mask =>
      ["cartoon_u", "cartoon_g", "cartoon_r", "cartoon_i", "cartoon_z"].map (fun c =>
        if mask.contains c then f "magNorm"
        else (f "magNorm").map (fun _ => none)) }

/-- A catalog owning the per-lifetime getter, requesting one column. -/
def lifetimeCat : CatalogType ℚ :=
  { getters := [lifetimeMagsGetter]
    nativeColumns := ["id", "magNorm"]
    cannotBeNull := [] }

/-- The requested columns of the lifetime catalog. -/
def lifetimeR : List Col := ["cartoon_u"]

/-- A three-chunk run for the lifetime catalog. -/
def lifetimeChunks : List (Nat × ChunkMap ℚ) :=
  [(1, [("id", [some 0]), ("magNorm", [some 17])]),
   (1, [("id", [some 1]), ("magNorm", [some 18])]),
   (1, [("id", [some 2]), ("magNorm", [some 19])])]

/-- From the source (`testDefaults.get_parallax` in
`CatalogTestUtils.py`): reads `raJ2000` for the row count and returns
the value 1.2 for every row. -/
def get_parallax_run (f : Col → List (Val ℚ)) (_mask : List Col) : List (List (Val ℚ)) :=
  [List.replicate (f "raJ2000").length (some (6 / 5))]

/-- The producer descriptor of the `parallax` getter of `testDefaults`. -/
def parallaxGetter : Getter ℚ :=
  { gid := 1
    outputs := ["parallax"]
    deps := fun _ => ["raJ2000"]
    policy := .perChunk
    run := get_parallax_run }

/-- A star catalog mixing in `testDefaults` while its data source (the
star database built by `makeStarDatabase`) also provides a native
`parallax` column. -/
def defaultsStarCat : CatalogType ℚ :=
  { getters := [parallaxGetter]
    nativeColumns := ["simobjid", "raJ2000", "decJ2000", "parallax"]
    cannotBeNull := [] }

/-- The requested columns of the `testDefaults` catalog. -/
def defaultsR : List Col := ["raJ2000", "parallax"]

/-- From the source (`FrozenSNCat` in `sncat.py`): the survey start date. -/
def surveyStartDate : ℚ := 59580

/-- From the source (`SNFunctionality` in `sncat.py`): how long a
supernova stays visible around its `t0`. -/
def maxTimeSNVisible : ℚ := 100

/-- From the source (`FrozenSNCat.get_snparams`): `t0` is the native
`Tt0` shifted by `surveyStartDate`; with `suppressDimSN` (the default),
`t0` is replaced by the bad value NaN wherever
`|t0 - mjdobs| > maxTimeSNVisible`. -/
def frozenT0 (mjdobs : ℚ) (v : Val ℚ) : Val ℚ :=
  v.bind (fun x =>
    if |x + surveyStartDate - mjdobs| > maxTimeSNVisible then none
    else some (x + surveyStartDate))

/-- From the source: the `get_snparams` compound getter of `FrozenSNCat`
(outputs `c`, `x1`, `x0`, `t0` from the native `Tc`, `Tx1`, `Tx0`,
`Tt0`). -/
def snparamsGetter (mjdobs : ℚ) : Getter ℚ :=
  { gid := 2
    outputs := ["c", "x1", "x0", "t0"]
    deps := fun _ => ["Tc", "Tx1", "Tx0", "Tt0"]
    policy := .perChunk
    run := fun f _ => [f "Tc", f "Tx1", f "Tx0", (f "Tt0").map (frozenT0 mjdobs)] }

/-- From the source: the `get_angularCoordinates` compound getter of
`FrozenSNCat` (supernova coordinates and redshift copied from the host
galaxy columns; zero velocities). -/
def angularGetter : Getter ℚ :=
  { gid := 1
    outputs := ["snra", "sndec", "z", "vra", "vdec", "vr"]
    deps := fun _ => ["raJ2000", "decJ2000", "Tredshift"]
    policy := .perChunk
    run := fun f _ =>
      [f "raJ2000", f "decJ2000", f "Tredshift",
       List.replicate (f "raJ2000").length (some 0),
       List.replicate (f "raJ2000").length (some 0),
       List.replicate (f "raJ2000").length (some 0)] }

/-- The `FrozenSNCat` catalog type: its getters, its native columns and
the `cannot_be_null` list `[x0, z, t0]` of `SNFunctionality`.  `snid` is
kept native here: its getter in the source is a plain copy of the data
source's id column. -/
def frozenSNCat (mjdobs : ℚ) : CatalogType ℚ :=
  { getters := [angularGetter, snparamsGetter mjdobs]
    nativeColumns := ["snid", "raJ2000", "decJ2000", "Tredshift", "Tc", "Tx1", "Tx0", "Tt0"]
    cannotBeNull := ["x0", "z", "t0"] }

/-- From the source: `SNFunctionality.column_outputs` (with `z`, `t0`,
`c`, `x1`, `x0` being the derived supernova parameters). -/
def snR : List Col := ["snid", "snra", "sndec", "z", "t0", "c", "x1", "x0"]

/-- A native chunk for the frozen-supernova catalog. -/
def snData (ids ra dec zr tc tx1 tx0 tt0 : List ℚ) : ChunkMap ℚ :=
  [("snid", ids.map some), ("raJ2000", ra.map some), ("decJ2000", dec.map some),
   ("Tredshift", zr.map some), ("Tc", tc.map some), ("Tx1", tx1.map some),
   ("Tx0", tx0.map some), ("Tt0", tt0.map some)]

/-- The chunk map after evaluating the frozen-supernova catalog on
`snData` (the getter outputs prepended, in invocation order, onto the
materialised native columns). -/
def snMap (mjdobs : ℚ) (ids ra dec zr tc tx1 tx0 tt0 : List ℚ) : ChunkMap ℚ :=
  [("c", tc.map some), ("x1", tx1.map some), ("x0", tx0.map some),
   ("t0", (tt0.map some).map (frozenT0 mjdobs)),
   ("snra", ra.map some), ("sndec", dec.map some), ("z", zr.map some),
   ("vra", List.replicate (ra.map some).length (some 0)),
   ("vdec", List.replicate (ra.map some).length (some 0)),
   ("vr", List.replicate (ra.map some).length (some 0)),
   ("snid", ids.map some), ("raJ2000", ra.map some), ("decJ2000", dec.map some),
   ("Tredshift", zr.map some), ("Tc", tc.map some), ("Tx1", tx1.map some),
   ("Tx0", tx0.map some), ("Tt0", tt0.map some)]

/-! Photometric-uncertainty failure path (claim C4). -/

/-- From the source (`photometryUnitTest.test_m5_exceptions` in
`tests/testPhotometryMixins.py`): the literal diagnostic substring the
raised KeyError must contain when an m5 value is missing. -/
def m5MissingDiagnostic : String :=
  "Is it possible your ObservationMetaData does not have the proper\nm5 values defined?"

/-- Modelled from the spec: the KeyError message raised by the
photometric-uncertainty getter (in the external `PhotometryBase` mixin)
for a band with no m5 depth: it identifies the missing key and carries
the diagnostic substring. -/
def m5MissingMessage (band : Col) : String :=
  "Key " ++ band ++ " not found in ObservationMetaData.m5. " ++ m5MissingDiagnostic

/-- Modelled from the spec: the per-band uncertainty getter — it looks
up the band's 5-sigma depth in the observation metadata and either
computes the per-row uncertainties (an opaque function `sigma` of
magnitude and depth; the actual formula lives in the external
`lsst.sims.photUtils`) or raises the KeyError. -/
def magUncertaintyGetter (sigma : ℚ → ℚ → ℚ) (m5 : List (Col × ℚ)) (band : Col)
    (mags : List (Val ℚ)) : Except String (List (Val ℚ)) :=
  match lookupA m5 band with
  | some depth => Except.ok (mags.map (Option.map (fun m => sigma m depth)))
  | none => Except.error (m5MissingMessage band)

/-- Modelled from the spec: evaluating all requested uncertainty columns
of a catalog — the first raised error aborts the evaluation and is
handed to the caller unchanged (no retry, no default). -/
def uncertaintyColumns (sigma : ℚ → ℚ → ℚ) (m5 : List (Col × ℚ))
    (mags : List (Val ℚ)) : List Col → Except String (List (List (Val ℚ)))
  | [] => Except.ok []
  | b :: bs =>
    match magUncertaintyGetter sigma m5 b mags with
    | Except.error e => Except.error e
    | Except.ok col =>
      match uncertaintyColumns sigma m5 mags bs with
      | Except.error e => Except.error e
      | Except.ok rest => Except.ok (col :: rest)

/-! Registration of data-source objects (claim C6). -/

/-- From the source (`DBObjectMeta` in `rewrite/dbConnection.py`): the
registry state of the `DBObject` metaclass — the objid-to-class mapping
plus the warnings emitted so far. -/
structure Registry where
  entries : List (Col × String)
  warnings : List String

/-- From the source (`DBObjectMeta.__init__`): registering a newly
created `DBObject` subclass: if the objid is already claimed the warning
`duplicate object id <id> specified` is appended, and the class is then
stored unconditionally — a Python dict assignment, so the later
registration shadows the earlier one on lookup. -/
def registerObj (st : Registry) (objid clsName : String) : Registry :=
  { entries := (objid, clsName) :: st.entries
    warnings :=
      if (lookupA st.entries objid).isSome then
        st.warnings ++ ["duplicate object id " ++ objid ++ " specified"]
      else st.warnings }

/-! Chunked querying (claim C7). -/

/-- From the source (`rewrite/dbConnection.py`): the module-level names
bound once the module has been imported. -/
def dbConnectionModuleNames : List String :=
  ["warnings", "math", "numpy", "scoped_session", "sessionmaker", "mapper",
   "expression", "create_engine", "ThreadLocalMetaData", "MetaData", "Table",
   "Column", "BigInteger", "DEFAULT_ADDRESS", "ObservationMetaData",
   "ChunkIterator", "DBObjectMeta", "DBObject", "StarObj"]

/-- From the source: the local names in scope inside
`ChunkIterator.__init__` — its parameters. -/
def chunkIteratorInitScope : List String := ["self", "exec_query", "chunksize"]

/-- Python name resolution for a loaded name: enclosing local scope,
then module globals; an unbound name raises `NameError`. -/
def loadName (lcls gbls : List String) (n : String) : Except String Unit :=
  if n ∈ lcls ∨ n ∈ gbls then Except.ok ()
  else Except.error ("NameError: name " ++ n ++ " is not defined")

/-- From the source (`ChunkIterator.__init__`, lines 57–60): the names
the body loads, in evaluation order — line 58 reads `dbobj`, line 59
reads `dbobj` and `query`, line 60 reads `chunksize`. -/
def chunkIteratorInitLoads : List String := ["dbobj", "dbobj", "query", "chunksize"]

/-- Evaluating `ChunkIterator.__init__`: the loads run left to right and
the first failure aborts the constructor. -/
def chunkIteratorInit : Except String Unit :=
  chunkIteratorInitLoads.foldl
    (fun acc n =>
      acc >>= fun _ => loadName chunkIteratorInitScope dbConnectionModuleNames n)
    (Except.ok ())

/-- From the source (`DBObject.query_columns`): with no `chunksize` the
full post-processed result list is returned in one call; with a
`chunksize` a `ChunkIterator` is constructed first (running the
`__init__` modelled above) before any chunk could be fetched. -/
def query_columns_model (rows : List (List ℚ)) (chunksize : Option Nat) :
    Except String (List (List ℚ)) :=
  match chunksize with
  | none => Except.ok rows
  | some _ => chunkIteratorInit >>= fun _ => Except.ok rows

/-! Galaxy magnitude summation and cosmological dimming (claims C9, C10).
Floating-point values are idealised as real numbers; the NaN sentinel
stays `none`. -/

/-- Modelled from the spec: the flux contribution of one galaxy
component magnitude inside `sum_magnitudes` — `10 ^ (-0.4 (m - m0))`
for a live magnitude, zero flux for the NaN sentinel. -/
noncomputable def componentFlux (m0 : ℝ) (v : Val ℝ) : ℝ :=
  match v with
  | none => 0
  | some m => (10 : ℝ) ^ (-(2 / 5 : ℝ) * (m - m0))

/-- Modelled from the spec: `PhotometryGalaxies.sum_magnitudes` (the
mixin is an external dependency of this repository; its contract is
pinned by `photometryUnitTest.testSumMagnitudes`): the component fluxes
are summed — NaN contributing nothing — and converted back to a
magnitude `-2.5 log10 (total flux) + m0`; a zero total flux (no live
component) yields the NaN sentinel. -/
noncomputable def sum_magnitudes (m0 : ℝ) (bulge disk agn : Val ℝ) : Val ℝ :=
  if componentFlux m0 bulge + componentFlux m0 disk + componentFlux m0 agn = 0 then
    none
  else
    some (-(5 / 2 : ℝ) * Real.logb 10
      (componentFlux m0 bulge + componentFlux m0 disk + componentFlux m0 agn) + m0)

/-- The vectorised form of `sum_magnitudes`: elementwise over the three
component arrays. -/
noncomputable def sum_magnitudes_list (m0 : ℝ) (lb ld la : List (Val ℝ)) :
    List (Val ℝ) :=
  List.zipWith3 (sum_magnitudes m0) lb ld la

/-- A uniform magnitude shift; the NaN sentinel stays NaN. -/
def shiftMag (μ : ℝ) (v : Val ℝ) : Val ℝ := v.map (fun m => m + μ)

/-- The magnitude-bearing output columns of one galaxy catalog row. -/
structure GalaxyRowOut where
  galid : ℝ
  redshift : ℝ
  modulus : ℝ
  bulgeMags : List (Val ℝ)
  diskMags : List (Val ℝ)
  agnMags : List (Val ℝ)
  totalMags : List (Val ℝ)

/-- Modelled from the spec: the galaxy photometry pipeline for one row —
each band's component magnitude is the rest-frame base magnitude plus the
catalog's `cosmologicalDistanceModulus` column `μ` (`PhotometryGalaxies`
applies the modulus to every component), and the total magnitudes come
from `sum_magnitudes` over the shifted components.  The cosmology-mixin
catalog computes `μ = dm z`; the `absoluteGalaxyCatalog` of the test
overrides `get_cosmologicalDistanceModulus` to return zero. -/
noncomputable def galaxyCatalogRow (m0 gid z μ : ℝ)
    (baseB baseD baseA : List (Val ℝ)) : GalaxyRowOut :=
  { galid := gid
    redshift := z
    modulus := μ
    bulgeMags := baseB.map (shiftMag μ)
    diskMags := baseD.map (shiftMag μ)
    agnMags := baseA.map (shiftMag μ)
    totalMags := sum_magnitudes_list m0 (baseB.map (shiftMag μ))
      (baseD.map (shiftMag μ)) (baseA.map (shiftMag μ)) }

theorem colDeps_subset_universe (cat : CatalogType α) (R : List Col) (c : Col) :
    (colDeps cat c).toFinset ⊆ colUniverse cat R := by
  intro d hd
  simp only [List.mem_toFinset] at hd
  unfold colDeps at hd
  cases hfind : findGetter cat c with
  | none => rw [hfind] at hd; simp at hd
  | some g =>
      rw [hfind] at hd
      have hfind' : cat.getters.find? (fun g => g.outputs.contains c) = some g := hfind
      have hmem : g ∈ cat.getters := List.mem_of_find?_eq_some hfind'
      have hcontains :=
        List.find?_some (p := fun h : Getter α => h.outputs.contains c) hfind'
      have hc : c ∈ g.outputs := by simpa using hcontains
      unfold colUniverse
      simp only [List.mem_toFinset, List.mem_append, List.mem_flatMap]
      right
      exact ⟨g, hmem, Or.inr ⟨c, hc, hd⟩⟩

theorem subset_closeFuel (cat : CatalogType α) (U : Finset Col) (n : Nat) (S : Finset Col) :
    S ⊆ closeFuel cat U n S := by
  induction n generalizing S with
  | zero => simp [closeFuel]
  | succ n ih =>
      unfold closeFuel
      by_cases h : depsOf cat S ∩ U ⊆ S
      · simp [h]
      · simp only [h, if_false]
        exact Finset.Subset.trans Finset.subset_union_left (ih _)

theorem closeFuel_subset_union (cat : CatalogType α) (U : Finset Col) (n : Nat) (S : Finset Col) :
    closeFuel cat U n S ⊆ S ∪ U := by
  induction n generalizing S with
  | zero => simp [closeFuel]
  | succ n ih =>
      unfold closeFuel
      by_cases h : depsOf cat S ∩ U ⊆ S
      · simp only [h, if_true]
        exact Finset.subset_union_left
      · simp only [h, if_false]
        refine Finset.Subset.trans (ih _) ?_
        apply Finset.union_subset
        · apply Finset.union_subset Finset.subset_union_left
          exact Finset.Subset.trans Finset.inter_subset_right Finset.subset_union_right
        · exact Finset.subset_union_right

/-- Everything the resolver adds is reachable from the starting set. -/
theorem closeFuel_sound (cat : CatalogType α) (U : Finset Col) (n : Nat) (S : Finset Col)
    (c : Col) (hc : c ∈ closeFuel cat U n S) :
    ∃ s ∈ S, Relation.ReflTransGen (DepStep cat) s c := by
  induction n generalizing S with
  | zero => exact ⟨c, by simpa [closeFuel] using hc, Relation.ReflTransGen.refl⟩
  | succ n ih =>
      unfold closeFuel at hc
      by_cases h : depsOf cat S ∩ U ⊆ S
      · rw [if_pos h] at hc
        exact ⟨c, hc, Relation.ReflTransGen.refl⟩
      · simp only [h, if_false] at hc
        obtain ⟨s, hs, hreach⟩ := ih _ hc
        rcases Finset.mem_union.mp hs with hs | hs
        · exact ⟨s, hs, hreach⟩
        · have hs' := Finset.mem_inter.mp hs
          obtain ⟨a, ha, hdep⟩ := Finset.mem_biUnion.mp hs'.1
          refine ⟨a, ha, Relation.ReflTransGen.head ?_ hreach⟩
          simpa [DepStep] using hdep

/-- With fuel exceeding the number of universe columns not yet collected,
the resolver reaches a fixed point: the result is closed under taking
dependencies inside the universe. -/
theorem closeFuel_closed (cat : CatalogType α) (U : Finset Col) (n : Nat) (S : Finset Col)
    (hn : (U \ S).card < n) :
    depsOf cat (closeFuel cat U n S) ∩ U ⊆ closeFuel cat U n S := by
  induction n generalizing S with
  | zero => omega
  | succ n ih =>
      unfold closeFuel
      by_cases h : depsOf cat S ∩ U ⊆ S
      · simp only [h, if_true]
      · simp only [h, if_false]
        apply ih
        obtain ⟨x, hxT, hxS⟩ := Finset.not_subset.mp h
        have hxU : x ∈ U := (Finset.mem_inter.mp hxT).2
        have hstrict : U \ (S ∪ (depsOf cat S ∩ U)) ⊂ U \ S := by
          constructor
          · exact Finset.sdiff_subset_sdiff (Finset.Subset.refl U) Finset.subset_union_left
          · intro habs
            have hx1 : x ∈ U \ S := Finset.mem_sdiff.mpr ⟨hxU, hxS⟩
            have hx2 := habs hx1
            have : x ∈ S ∪ (depsOf cat S ∩ U) := Finset.mem_union_right _ hxT
            exact (Finset.mem_sdiff.mp hx2).2 this
        have := Finset.card_lt_card hstrict
        omega

/-- Soundness direction specialised to `neededSet`. -/
theorem neededSet_sound (cat : CatalogType α) (R : List Col) (c : Col)
    (hc : c ∈ neededSet cat R) : NeededCol cat R c := by
  obtain ⟨s, hs, hreach⟩ := closeFuel_sound cat _ _ _ c hc
  exact ⟨s, List.mem_toFinset.mp hs, hreach⟩

/-- Completeness direction: every column in the reflexive-transitive
dependency closure of the requested set is collected by the resolver. -/
theorem neededSet_complete (cat : CatalogType α) (R : List Col) (c : Col)
    (hc : NeededCol cat R c) : c ∈ neededSet cat R := by
  obtain ⟨r, hr, hreach⟩ := hc
  induction hreach with
  | refl =>
      exact subset_closeFuel cat _ _ _ (List.mem_toFinset.mpr hr)
  | tail hab hstep ih =>
      rename_i a b
      have hclosed := closeFuel_closed cat (colUniverse cat R)
        ((colUniverse cat R).card + 1) R.toFinset
        (by have := Finset.card_le_card (Finset.sdiff_subset
              (s := colUniverse cat R) (t := R.toFinset)); omega)
      apply hclosed
      refine Finset.mem_inter.mpr ⟨?_, ?_⟩
      · exact Finset.mem_biUnion.mpr ⟨a, ih, List.mem_toFinset.mpr hstep⟩
      · exact colDeps_subset_universe cat R a (List.mem_toFinset.mpr hstep)

/-- The resolver computes exactly the transitive dependency closure. -/
theorem neededSet_iff (cat : CatalogType α) (R : List Col) (c : Col) :
    c ∈ neededSet cat R ↔ NeededCol cat R c :=
  ⟨neededSet_sound cat R c, neededSet_complete cat R c⟩

/-! Behaviour of a single evaluator step. -/

theorem evalGetter_run (cat : CatalogType α) (R : List Col)
    (acc : RunState α × ChunkMap α) (g : Getter α)
    (h : lookupC acc.1.cache g.gid = none) :
    (evalGetter cat R acc g).1.log = acc.1.log ++ [g.gid] ∧
    (evalGetter cat R acc g).2 = g.outputs.zip (runNeeded cat R g acc.2) ++ acc.2 := by
  unfold evalGetter
  split
  · rw [h]
    exact ⟨rfl, rfl⟩
  · exact ⟨rfl, rfl⟩

theorem evalGetter_lifetime_run (cat : CatalogType α) (R : List Col)
    (acc : RunState α × ChunkMap α) (g : Getter α)
    (hpol : g.policy = .perLifetime) (h : lookupC acc.1.cache g.gid = none) :
    (evalGetter cat R acc g).1.cache =
      (g.gid, runNeeded cat R g acc.2) :: acc.1.cache := by
  unfold evalGetter
  rw [hpol, h]

theorem evalGetter_lifetime_cached (cat : CatalogType α) (R : List Col)
    (acc : RunState α × ChunkMap α) (g : Getter α) (outs : List (List (Val α)))
    (hpol : g.policy = .perLifetime) (h : lookupC acc.1.cache g.gid = some outs) :
    (evalGetter cat R acc g).1 = acc.1 ∧
    (evalGetter cat R acc g).2 = g.outputs.zip outs ++ acc.2 := by
  unfold evalGetter
  rw [hpol, h]
  exact ⟨rfl, rfl⟩

theorem evalGetter_shape (cat : CatalogType α) (R : List Col)
    (acc : RunState α × ChunkMap α) (g : Getter α) :
    ((evalGetter cat R acc g).1.log = acc.1.log ∧
       (evalGetter cat R acc g).1.cache = acc.1.cache)
    ∨ ((evalGetter cat R acc g).1.log = acc.1.log ++ [g.gid] ∧
        ((evalGetter cat R acc g).1.cache = acc.1.cache ∨
          ∃ outs, (evalGetter cat R acc g).1.cache = (g.gid, outs) :: acc.1.cache)) := by
  unfold evalGetter
  split
  · split
    · exact Or.inl ⟨rfl, rfl⟩
    · exact Or.inr ⟨rfl, Or.inr ⟨_, rfl⟩⟩
  · exact Or.inr ⟨rfl, Or.inl rfl⟩

theorem evalGetter_map_mono (cat : CatalogType α) (R : List Col)
    (acc : RunState α × ChunkMap α) (g : Getter α) (c : Col)
    (h : (lookupA acc.2 c).isSome) : (lookupA (evalGetter cat R acc g).2 c).isSome := by
  have hm : ∃ pre, (evalGetter cat R acc g).2 = pre ++ acc.2 := by
    unfold evalGetter
    split
    · split
      · exact ⟨_, rfl⟩
      · exact ⟨_, rfl⟩
    · exact ⟨_, rfl⟩
  obtain ⟨pre, hpre⟩ := hm
  rw [hpre]
  unfold lookupA at h ⊢
  rw [List.find?_append]
  cases hfind : List.find? (fun p => p.1 == c) pre with
  | some p => simp
  | none =>
      simp only [Option.none_or]
      exact h

/-! Behaviour of the fold over the invocation list. -/

theorem foldE_count_le (cat : CatalogType α) (R : List Col) (i : Nat) :
    ∀ (L : List (Getter α)) (acc : RunState α × ChunkMap α),
      ((L.foldl (evalGetter cat R) acc).1.log.count i) ≤
        acc.1.log.count i + ((L.map Getter.gid).count i) := by
  intro L
  induction L with
  | nil => intro acc; simp
  | cons g L ih =>
      intro acc
      refine le_trans (ih (evalGetter cat R acc g)) ?_
      rcases evalGetter_shape cat R acc g with ⟨hlog, _⟩ | ⟨hlog, _⟩
      · simp only [hlog, List.map_cons, List.count_cons]
        omega
      · simp only [hlog, List.map_cons, List.count_cons, List.count_append, List.count_nil]
        omega

theorem foldE_count_ge (cat : CatalogType α) (R : List Col) (i : Nat) :
    ∀ (L : List (Getter α)) (acc : RunState α × ChunkMap α),
      acc.1.log.count i ≤ ((L.foldl (evalGetter cat R) acc).1.log.count i) := by
  intro L
  induction L with
  | nil => intro acc; simp
  | cons g L ih =>
      intro acc
      refine le_trans ?_ (ih (evalGetter cat R acc g))
      rcases evalGetter_shape cat R acc g with ⟨hlog, _⟩ | ⟨hlog, _⟩ <;>
        simp [hlog, List.count_append]

theorem foldE_count_eq_of_notmem (cat : CatalogType α) (R : List Col) (i : Nat)
    (L : List (Getter α)) (acc : RunState α × ChunkMap α)
    (h : i ∉ L.map Getter.gid) :
    ((L.foldl (evalGetter cat R) acc).1.log.count i) = acc.1.log.count i := by
  have h1 := foldE_count_le cat R i L acc
  have h2 := foldE_count_ge cat R i L acc
  have h3 : (L.map Getter.gid).count i = 0 := List.count_eq_zero.mpr h
  omega

theorem foldE_cache_eq_of_notmem (cat : CatalogType α) (R : List Col) (i : Nat) :
    ∀ (L : List (Getter α)) (acc : RunState α × ChunkMap α),
      i ∉ L.map Getter.gid →
      lookupC ((L.foldl (evalGetter cat R) acc).1.cache) i = lookupC acc.1.cache i := by
  intro L
  induction L with
  | nil => intro acc _; rfl
  | cons g L ih =>
      intro acc h
      simp only [List.map_cons, List.mem_cons] at h
      push_neg at h
      rw [List.foldl_cons, ih _ h.2]
      rcases evalGetter_shape cat R acc g with ⟨_, hc⟩ | ⟨_, hc | ⟨outs, hc⟩⟩
      · rw [hc]
      · rw [hc]
      · rw [hc]
        unfold lookupC
        rw [List.find?_cons_of_neg]
        simp only [beq_iff_eq]
        exact fun habs => h.1 habs.symm

theorem foldE_cache_mono (cat : CatalogType α) (R : List Col) (i : Nat) :
    ∀ (L : List (Getter α)) (acc : RunState α × ChunkMap α),
      (lookupC acc.1.cache i).isSome →
      (lookupC ((L.foldl (evalGetter cat R) acc).1.cache) i).isSome := by
  intro L
  induction L with
  | nil => intro acc h; exact h
  | cons g L ih =>
      intro acc h
      refine ih _ ?_
      rcases evalGetter_shape cat R acc g with ⟨_, hc⟩ | ⟨_, hc | ⟨outs, hc⟩⟩
      · rw [hc]; exact h
      · rw [hc]; exact h
      · rw [hc]
        unfold lookupC
        by_cases hi : g.gid = i
        · rw [List.find?_cons_of_pos]
          · simp
          · simp [hi]
        · rw [List.find?_cons_of_neg]
          · exact h
          · simp [hi]

theorem foldE_map_mono (cat : CatalogType α) (R : List Col) (c : Col) :
    ∀ (L : List (Getter α)) (acc : RunState α × ChunkMap α),
      (lookupA acc.2 c).isSome →
      (lookupA ((L.foldl (evalGetter cat R) acc).2) c).isSome := by
  intro L
  induction L with
  | nil => intro acc h; exact h
  | cons g L ih =>
      intro acc h
      exact ih _ (evalGetter_map_mono cat R acc g c h)

/-- When every getter of the list is absent from the cache and ids are
distinct, the fold invokes each getter exactly once, in order. -/
theorem foldE_log_fresh (cat : CatalogType α) (R : List Col) :
    ∀ (L : List (Getter α)) (acc : RunState α × ChunkMap α),
      (L.map Getter.gid).Nodup →
      (∀ g ∈ L, lookupC acc.1.cache g.gid = none) →
      (L.foldl (evalGetter cat R) acc).1.log = acc.1.log ++ L.map Getter.gid := by
  intro L
  induction L with
  | nil => intro acc _ _; simp
  | cons g L ih =>
      intro acc hnd hfresh
      simp only [List.map_cons, List.nodup_cons] at hnd
      have hg : lookupC acc.1.cache g.gid = none := hfresh g (List.mem_cons_self g L)
      have hrun := (evalGetter_run cat R acc g hg).1
      have hfresh' : ∀ g' ∈ L, lookupC (evalGetter cat R acc g).1.cache g'.gid = none := by
        intro g' hg'
        have hne : g'.gid ≠ g.gid := by
          intro habs
          exact hnd.1 (habs ▸ List.mem_map_of_mem Getter.gid hg')
        rcases evalGetter_shape cat R acc g with ⟨_, hc⟩ | ⟨_, hc | ⟨outs, hc⟩⟩
        · rw [hc]; exact hfresh g' (List.mem_cons_of_mem g hg')
        · rw [hc]; exact hfresh g' (List.mem_cons_of_mem g hg')
        · rw [hc]
          unfold lookupC
          rw [List.find?_cons_of_neg]
          · exact hfresh g' (List.mem_cons_of_mem g hg')
          · simp [hne.symm]
      rw [List.foldl_cons, ih _ hnd.2 hfresh', hrun]
      simp

/-! Characterisation of the invocation list. -/

theorem neededBy_iff (cat : CatalogType α) (R : List Col) (g : Getter α) :
    neededBy cat R g = true ↔
      ∃ c ∈ g.outputs, c ∈ neededSet cat R ∧ producerGid cat c = some g.gid := by
  unfold neededBy
  simp [List.any_eq_true, Bool.and_eq_true, decide_eq_true_eq]

theorem producerGid_spec (cat : CatalogType α) (c : Col) (i : Nat)
    (h : producerGid cat c = some i) :
    ∃ g ∈ cat.getters, g.gid = i ∧ c ∈ g.outputs := by
  unfold producerGid findGetter at h
  cases hfind : cat.getters.find? (fun g => g.outputs.contains c) with
  | none => rw [hfind] at h; simp at h
  | some g =>
      rw [hfind] at h
      simp only [Option.map_some', Option.some_inj] at h
      refine ⟨g, List.mem_of_find?_eq_some hfind, h, ?_⟩
      have := List.find?_some (p := fun h : Getter α => h.outputs.contains c) hfind
      simpa using this

theorem invocationList_gid_nodup (cat : CatalogType α) (R : List Col)
    (hnd : (cat.getters.map Getter.gid).Nodup) :
    ((invocationList cat R).map Getter.gid).Nodup :=
  List.Nodup.sublist (List.Sublist.map Getter.gid (List.filter_sublist _)) hnd

theorem evalChunkMap_log_initState (cat : CatalogType α) (R : List Col)
    (data : ChunkMap α) (hnd : (cat.getters.map Getter.gid).Nodup) :
    (evalChunkMap cat R data initState).1.log =
      (invocationList cat R).map Getter.gid := by
  unfold evalChunkMap
  have h := foldE_log_fresh cat R (invocationList cat R)
    (initState, nativeInit cat R data) (invocationList_gid_nodup cat R hnd)
    (fun g _ => rfl)
  rw [h]
  rfl

/-! Small association-list facts used by the atomic-storage argument. -/

theorem lookupA_cons_pos {β : Type} (p : Col × β) (m : List (Col × β)) (c : Col)
    (h : p.1 = c) : lookupA (p :: m) c = some p.2 := by
  unfold lookupA
  rw [List.find?_cons_of_pos]
  · rfl
  · simp [h]

theorem lookupA_cons_neg {β : Type} (p : Col × β) (m : List (Col × β)) (c : Col)
    (h : p.1 ≠ c) : lookupA (p :: m) c = lookupA m c := by
  unfold lookupA
  rw [List.find?_cons_of_neg]
  simp [h]

theorem lookupA_isSome_of_mem_keys {β : Type} (m : List (Col × β)) (c : Col)
    (h : c ∈ m.map Prod.fst) : (lookupA m c).isSome := by
  induction m with
  | nil => simp at h
  | cons p m ih =>
      by_cases hc : p.1 = c
      · rw [lookupA_cons_pos p m c hc]
        rfl
      · rw [lookupA_cons_neg p m c hc]
        apply ih
        simp only [List.map_cons, List.mem_cons] at h
        rcases h with h | h
        · exact absurd h.symm hc
        · exact h

theorem lookupA_append_isSome {β : Type} (m₁ m₂ : List (Col × β)) (c : Col)
    (h : (lookupA m₁ c).isSome) : (lookupA (m₁ ++ m₂) c).isSome := by
  unfold lookupA at h ⊢
  rw [List.find?_append]
  cases hf : m₁.find? (fun p => p.1 == c) with
  | some p => simp
  | none => rw [hf] at h; simp at h

/-! ## Claim C1

For every catalog type and requested-column set, the set of getters
invoked while evaluating a chunk is exactly the set of producers of the
transitive dependency closure of the requested columns. -/

/-- C1: the engine's `_actually_calculated_columns` set (the resolver
result `neededSet`) is exactly the transitive closure of the
dependencies of the requested columns, and a getter is invoked during a
chunk evaluation if and only if it is the producer of a column of that
closure — no getter and no column outside the closure is ever
computed. -/
theorem claim_C1_lazy_closure (cat : CatalogType α) (R : List Col)
    (n : Nat) (data : ChunkMap α)
    (hnd : (cat.getters.map Getter.gid).Nodup) :
    (∀ c : Col, c ∈ neededSet cat R ↔ NeededCol cat R c) ∧
    (∀ g ∈ cat.getters,
      (g.gid ∈ (evalChunk cat R n data initState).2.log ↔
        ∃ c, NeededCol cat R c ∧ producerGid cat c = some g.gid)) := by
  refine ⟨neededSet_iff cat R, ?_⟩
  intro g hg
  have hlog : (evalChunk cat R n data initState).2.log =
      (invocationList cat R).map Getter.gid :=
    evalChunkMap_log_initState cat R data hnd
  rw [hlog]
  constructor
  · intro hmem
    obtain ⟨g', hg', hgid⟩ := List.mem_map.mp hmem
    have hg'mem : g' ∈ cat.getters := List.mem_of_mem_filter hg'
    have hneed : neededBy cat R g' = true := List.of_mem_filter hg'
    have hEq : g' = g := List.inj_on_of_nodup_map hnd hg'mem hg hgid
    subst hEq
    obtain ⟨c, _, hcn, hcp⟩ := (neededBy_iff cat R g').mp hneed
    exact ⟨c, (neededSet_iff cat R c).mp hcn, hcp⟩
  · rintro ⟨c, hcn, hcp⟩
    obtain ⟨g'', hg''mem, hgid, hcout⟩ := producerGid_spec cat c g.gid hcp
    have hEq : g'' = g := List.inj_on_of_nodup_map hnd hg''mem hg hgid
    subst hEq
    have hneed : neededBy cat R g'' = true :=
      (neededBy_iff cat R g'').mpr ⟨c, hcout, (neededSet_iff cat R c).mpr hcn, hcp⟩
    exact List.mem_map_of_mem Getter.gid (List.mem_filter_of_mem hg hneed)

/-! ## Claim C2

A getter is invoked at most once per chunk, a needed getter exactly
once, and all sibling outputs of a compound getter are stored by that
single invocation. -/

/-- C2: during the evaluation of any one chunk, any getter is invoked at
most once regardless of the starting run state; a getter producing a
needed column is invoked exactly once, and after the chunk evaluation
every one of its sibling outputs (not only the requested ones) is
present in the chunk's column map, stored atomically by that single
invocation. -/
theorem claim_C2_getter_once_per_chunk (cat : CatalogType α) (R : List Col)
    (data : ChunkMap α) (st : RunState α) (g : Getter α)
    (hnd : (cat.getters.map Getter.gid).Nodup)
    (hg : g ∈ cat.getters)
    (hrun : ∀ f mask, (g.run f mask).length = g.outputs.length) :
    ((evalChunkMap cat R data st).1.log.count g.gid ≤ st.log.count g.gid + 1) ∧
    (neededBy cat R g = true →
      ((evalChunkMap cat R data initState).1.log.count g.gid = 1) ∧
      (∀ c ∈ g.outputs, (lookupA (evalChunkMap cat R data initState).2 c).isSome)) := by
  have hinv := invocationList_gid_nodup cat R hnd
  constructor
  · have h1 := foldE_count_le cat R g.gid (invocationList cat R)
      (st, nativeInit cat R data)
    have h2 : ((invocationList cat R).map Getter.gid).count g.gid ≤ 1 :=
      List.nodup_iff_count_le_one.mp hinv g.gid
    unfold evalChunkMap
    exact le_trans h1 (Nat.add_le_add_left h2 (st.log.count g.gid))
  · intro hneed
    have hmemL : g ∈ invocationList cat R := List.mem_filter_of_mem hg hneed
    constructor
    · have hlog := evalChunkMap_log_initState cat R data hnd
      rw [hlog]
      have h2 : ((invocationList cat R).map Getter.gid).count g.gid ≤ 1 :=
        List.nodup_iff_count_le_one.mp hinv g.gid
      have h3 : 0 < ((invocationList cat R).map Getter.gid).count g.gid :=
        List.count_pos_iff.mpr (List.mem_map_of_mem Getter.gid hmemL)
      omega
    · intro c hc
      obtain ⟨L₁, L₂, hL⟩ := List.append_of_mem hmemL
      have hnd' := hinv
      rw [hL, List.map_append, List.map_cons] at hnd'
      have hdisj := List.disjoint_of_nodup_append hnd'
      have hnotmem1 : g.gid ∉ L₁.map Getter.gid := by
        intro habs
        exact hdisj habs (List.mem_cons_self _ _)
      unfold evalChunkMap
      rw [hL, List.foldl_append, List.foldl_cons]
      set acc1 := L₁.foldl (evalGetter cat R) (initState, nativeInit cat R data) with hacc1
      have hcache : lookupC acc1.1.cache g.gid = none := by
        rw [hacc1, foldE_cache_eq_of_notmem cat R g.gid L₁ _ hnotmem1]
        rfl
      have hstep := (evalGetter_run cat R acc1 g hcache).2
      apply foldE_map_mono
      rw [hstep]
      apply lookupA_append_isSome
      apply lookupA_isSome_of_mem_keys
      rw [List.map_fst_zip]
      · exact hc
      · unfold runNeeded
        rw [hrun]

/-! ## Claim C3

A per-lifetime-cached getter is invoked exactly once across the entire
multi-chunk run, however many chunks there are. -/

theorem evalChunkMap_lifetime (cat : CatalogType α) (R : List Col)
    (data : ChunkMap α) (st : RunState α) (g : Getter α)
    (hnd : (cat.getters.map Getter.gid).Nodup)
    (hg : g ∈ cat.getters) (hpol : g.policy = .perLifetime)
    (hneed : neededBy cat R g = true) :
    ((lookupC (evalChunkMap cat R data st).1.cache g.gid).isSome) ∧
    ((evalChunkMap cat R data st).1.log.count g.gid =
      st.log.count g.gid + (if (lookupC st.cache g.gid).isSome then 0 else 1)) := by
  have hinv := invocationList_gid_nodup cat R hnd
  have hmemL : g ∈ invocationList cat R := List.mem_filter_of_mem hg hneed
  obtain ⟨L₁, L₂, hL⟩ := List.append_of_mem hmemL
  have hnd' := hinv
  rw [hL, List.map_append, List.map_cons] at hnd'
  have hdisj := List.disjoint_of_nodup_append hnd'
  have hnotmem1 : g.gid ∉ L₁.map Getter.gid := by
    intro habs
    exact hdisj habs (List.mem_cons_self _ _)
  have hnotmem2 : g.gid ∉ L₂.map Getter.gid :=
    List.Nodup.not_mem (List.Nodup.of_append_right hnd')
  unfold evalChunkMap
  rw [hL, List.foldl_append, List.foldl_cons]
  set acc1 := L₁.foldl (evalGetter cat R) (st, nativeInit cat R data) with hacc1
  have hcache1 : lookupC acc1.1.cache g.gid = lookupC st.cache g.gid := by
    rw [hacc1]
    exact foldE_cache_eq_of_notmem cat R g.gid L₁ _ hnotmem1
  have hcount1 : acc1.1.log.count g.gid = st.log.count g.gid := by
    rw [hacc1]
    exact foldE_count_eq_of_notmem cat R g.gid L₁ _ hnotmem1
  cases hst : lookupC st.cache g.gid with
  | some outs =>
      have hcached := evalGetter_lifetime_cached cat R acc1 g outs hpol
        (by rw [hcache1, hst])
      constructor
      · apply foldE_cache_mono
        rw [hcached.1, hcache1, hst]
        rfl
      · rw [foldE_count_eq_of_notmem cat R g.gid L₂ _ hnotmem2, hcached.1,
          hcount1]
        simp
  | none =>
      have hrun := evalGetter_run cat R acc1 g (by rw [hcache1, hst])
      have hcacheadd := evalGetter_lifetime_run cat R acc1 g hpol
        (by rw [hcache1, hst])
      constructor
      · apply foldE_cache_mono
        rw [hcacheadd]
        unfold lookupC
        rw [List.find?_cons_of_pos]
        · simp
        · simp
      · rw [foldE_count_eq_of_notmem cat R g.gid L₂ _ hnotmem2, hrun.1,
          List.count_append, hcount1]
        simp

theorem runCatalog_snd_aux (cat : CatalogType α) (R : List Col) :
    ∀ (chunks : List (Nat × ChunkMap α)) (rows : List (List (Val α))) (st : RunState α),
      (chunks.foldl
        (fun acc ch =>
          (acc.1 ++ (evalChunk cat R ch.1 ch.2 acc.2).1, (evalChunk cat R ch.1 ch.2 acc.2).2))
        (rows, st)).2 =
      chunks.foldl (fun s ch => (evalChunkMap cat R ch.2 s).1) st := by
  intro chunks
  induction chunks with
  | nil => intro rows st; rfl
  | cons ch chunks ih => intro rows st; exact ih _ _

theorem runCatalog_snd (cat : CatalogType α) (R : List Col)
    (chunks : List (Nat × ChunkMap α)) :
    (runCatalog cat R chunks).2 =
      chunks.foldl (fun s ch => (evalChunkMap cat R ch.2 s).1) initState :=
  runCatalog_snd_aux cat R chunks [] initState

theorem runChunks_lifetime_stable (cat : CatalogType α) (R : List Col) (g : Getter α)
    (hnd : (cat.getters.map Getter.gid).Nodup)
    (hg : g ∈ cat.getters) (hpol : g.policy = .perLifetime)
    (hneed : neededBy cat R g = true) :
    ∀ (chunks : List (Nat × ChunkMap α)) (st : RunState α),
      (lookupC st.cache g.gid).isSome →
      ((chunks.foldl (fun s ch => (evalChunkMap cat R ch.2 s).1) st).log.count g.gid
          = st.log.count g.gid) ∧
      (lookupC (chunks.foldl (fun s ch => (evalChunkMap cat R ch.2 s).1) st).cache
          g.gid).isSome := by
  intro chunks
  induction chunks with
  | nil => intro st h; exact ⟨rfl, h⟩
  | cons ch chunks ih =>
      intro st h
      have hstep := evalChunkMap_lifetime cat R ch.2 st g hnd hg hpol hneed
      rw [List.foldl_cons]
      have hcount : (evalChunkMap cat R ch.2 st).1.log.count g.gid
          = st.log.count g.gid := by
        rw [hstep.2, h]
        simp
      obtain ⟨h1, h2⟩ := ih (evalChunkMap cat R ch.2 st).1 hstep.1
      exact ⟨by rw [h1, hcount], h2⟩

/-- C3: a per-lifetime-cached getter producing a needed column is
invoked exactly once across the entire multi-chunk catalog run, for any
chunk count at least one; indeed already after the first chunk its
invocation count is one (its resource is allocated there) and it stays
one after every later chunk, which reuses the cached value. -/
theorem claim_C3_lifetime_once (cat : CatalogType α) (R : List Col)
    (chunks : List (Nat × ChunkMap α)) (g : Getter α)
    (hnd : (cat.getters.map Getter.gid).Nodup)
    (hg : g ∈ cat.getters) (hpol : g.policy = .perLifetime)
    (hneed : neededBy cat R g = true) (hne : chunks ≠ []) :
    ((runCatalog cat R chunks).2.log.count g.gid = 1) ∧
    (∀ pre suf, chunks = pre ++ suf → pre ≠ [] →
      (runCatalog cat R pre).2.log.count g.gid = 1) := by
  have main : ∀ (l : List (Nat × ChunkMap α)), l ≠ [] →
      (runCatalog cat R l).2.log.count g.gid = 1 := by
    intro l hl
    cases l with
    | nil => exact absurd rfl hl
    | cons ch rest =>
        rw [runCatalog_snd, List.foldl_cons]
        have hfirst := evalChunkMap_lifetime cat R ch.2 initState g hnd hg hpol hneed
        have hcount1 : (evalChunkMap cat R ch.2 initState).1.log.count g.gid = 1 := by
          rw [hfirst.2]
          simp [initState, lookupC]
        obtain ⟨h1, _⟩ := runChunks_lifetime_stable cat R g hnd hg hpol hneed rest
          (evalChunkMap cat R ch.2 initState).1 hfirst.1
        rw [h1, hcount1]
  exact ⟨main chunks hne, fun pre _ _ hpre => main pre hpre⟩

/-- Witness for C1: the u-band star catalog from the lazy-columns test,
evaluated on a concrete two-row chunk. -/
theorem claim_C1_lazy_closure_witness :
    ((uStarCat.getters.map Getter.gid).Nodup) ∧
    ((∀ c : Col, c ∈ neededSet uStarCat uStarR ↔ NeededCol uStarCat uStarR c) ∧
      (∀ g ∈ uStarCat.getters,
        (g.gid ∈ (evalChunk uStarCat uStarR 2 uStarData initState).2.log ↔
          ∃ c, NeededCol uStarCat uStarR c ∧ producerGid uStarCat c = some g.gid))) :=
  ⟨by decide, claim_C1_lazy_closure uStarCat uStarR 2 uStarData (by decide)⟩

/-- Witness for C2: the IZ cartoon catalog, whose one compound getter
has both requested siblings `cartoon_i` and `cartoon_z`. -/
theorem claim_C2_getter_once_per_chunk_witness :
    ((cartoonIZCat.getters.map Getter.gid).Nodup) ∧
    (((evalChunkMap cartoonIZCat cartoonIZR cartoonData initState).1.log.count
        cartoonMagsGetter.gid ≤
          (initState : RunState ℚ).log.count cartoonMagsGetter.gid + 1) ∧
      (neededBy cartoonIZCat cartoonIZR cartoonMagsGetter = true →
        ((evalChunkMap cartoonIZCat cartoonIZR cartoonData initState).1.log.count
            cartoonMagsGetter.gid = 1) ∧
        (∀ c ∈ cartoonMagsGetter.outputs,
          (lookupA (evalChunkMap cartoonIZCat cartoonIZR cartoonData initState).2
              c).isSome))) :=
  ⟨by decide,
    claim_C2_getter_once_per_chunk cartoonIZCat cartoonIZR cartoonData initState
      cartoonMagsGetter (by decide) (List.mem_cons_self _ _) (fun _ _ => rfl)⟩

/-- Witness for C3: the per-lifetime catalog run over three chunks. -/
theorem claim_C3_lifetime_once_witness :
    ((lifetimeCat.getters.map Getter.gid).Nodup) ∧
    (lifetimeMagsGetter.policy = .perLifetime) ∧
    (neededBy lifetimeCat lifetimeR lifetimeMagsGetter = true) ∧
    (lifetimeChunks ≠ []) ∧
    (((runCatalog lifetimeCat lifetimeR lifetimeChunks).2.log.count
        lifetimeMagsGetter.gid = 1) ∧
      (∀ pre suf, lifetimeChunks = pre ++ suf → pre ≠ [] →
        (runCatalog lifetimeCat lifetimeR pre).2.log.count lifetimeMagsGetter.gid = 1)) :=
  ⟨by decide, rfl, by decide, by decide,
    claim_C3_lifetime_once lifetimeCat lifetimeR lifetimeChunks lifetimeMagsGetter
      (by decide) (List.mem_cons_self _ _) rfl (by decide) (by decide)⟩

/-! ## Claim C8

When a column has both a native data-source producer and a derived
getter, resolution prefers the derived getter. -/

/-- C8: in a catalog mixing in `testDefaults` whose data source also
supplies a native `parallax` column, the `parallax` column resolves to
the derived getter, and whatever values the native column carries, the
column materialised for the chunk is the getter's output — the constant
1.2 for every row — not the raw data. -/
theorem claim_C8_getter_overrides_native (ra pv : List (Val ℚ)) :
    producerGid defaultsStarCat "parallax" = some parallaxGetter.gid ∧
    lookupA (evalChunkMap defaultsStarCat defaultsR
        [("raJ2000", ra), ("parallax", pv)] initState).2 "parallax" =
      some (List.replicate ra.length (some (6 / 5))) :=
  ⟨rfl, rfl⟩

/-! ## Claim C5

Rows whose `cannot_be_null` columns hold the NaN sentinel are excluded
from the written output; all other rows appear, in encounter order. -/

theorem getD_map_lt {γ β : Type} (f : γ → β) (l : List γ) (i : Nat)
    (h : i < l.length) (d : β) (e : γ) :
    (l.map f).getD i d = f (l.getD i e) := by
  rw [List.getD_eq_getElem?_getD, List.getD_eq_getElem?_getD, List.getElem?_map]
  rw [List.getElem?_eq_getElem h]
  simp

/-- The dependency closure computation only looks at the dependency
structure of a catalog, never at the getter bodies. -/
theorem depsOf_congr (cat₁ cat₂ : CatalogType α)
    (hc : ∀ c, colDeps cat₁ c = colDeps cat₂ c) (S : Finset Col) :
    depsOf cat₁ S = depsOf cat₂ S := by
  unfold depsOf
  exact Finset.biUnion_congr rfl (fun c _ => by rw [hc c])

theorem closeFuel_congr (cat₁ cat₂ : CatalogType α)
    (hc : ∀ c, colDeps cat₁ c = colDeps cat₂ c) (U : Finset Col) (n : Nat) :
    ∀ S, closeFuel cat₁ U n S = closeFuel cat₂ U n S := by
  induction n with
  | zero => intro S; rfl
  | succ n ih =>
      intro S
      unfold closeFuel
      rw [depsOf_congr cat₁ cat₂ hc S]
      by_cases h : depsOf cat₂ S ∩ U ⊆ S
      · simp [h]
      · simp only [h, if_false]
        exact ih _

/-- The frozen-supernova catalog's column universe does not depend on
the observation epoch. -/
theorem colUniverse_frozen (m : ℚ) :
    colUniverse (frozenSNCat m) snR = colUniverse (frozenSNCat 0) snR :=
  congrArg List.toFinset rfl

/-- The frozen-supernova catalog's dependency edges do not depend on the
observation epoch. -/
theorem colDeps_frozen (m : ℚ) (c : Col) :
    colDeps (frozenSNCat m) c = colDeps (frozenSNCat 0) c := by
  by_cases h1 : (angularGetter.outputs.contains c) = true
  · have e1 : ∀ x : ℚ, findGetter (frozenSNCat x) c = some angularGetter := by
      intro x
      show List.find? (fun g => g.outputs.contains c) [angularGetter, snparamsGetter x]
          = some angularGetter
      exact List.find?_cons_of_pos (p := fun g : Getter ℚ => g.outputs.contains c) _ h1
    unfold colDeps
    rw [e1 m, e1 0]
  · by_cases h2 : ((snparamsGetter 0).outputs.contains c) = true
    · have h2x : ∀ x : ℚ, ((snparamsGetter x).outputs.contains c) = true := fun _ => h2
      have e2 : ∀ x : ℚ, findGetter (frozenSNCat x) c = some (snparamsGetter x) := by
        intro x
        show List.find? (fun g => g.outputs.contains c) [angularGetter, snparamsGetter x]
            = some (snparamsGetter x)
        rw [List.find?_cons_of_neg (p := fun g : Getter ℚ => g.outputs.contains c) _ h1]
        exact List.find?_cons_of_pos (p := fun g : Getter ℚ => g.outputs.contains c) _ (h2x x)
      unfold colDeps
      rw [e2 m, e2 0]
      rfl
    · have h2x : ∀ x : ℚ, ((snparamsGetter x).outputs.contains c) = true → False :=
        fun _ h => h2 h
      have e3 : ∀ x : ℚ, findGetter (frozenSNCat x) c = none := by
        intro x
        show List.find? (fun g => g.outputs.contains c) [angularGetter, snparamsGetter x]
            = none
        rw [List.find?_cons_of_neg (p := fun g : Getter ℚ => g.outputs.contains c) _ h1,
          List.find?_cons_of_neg (p := fun g : Getter ℚ => g.outputs.contains c) _ (h2x x)]
        rfl
      unfold colDeps
      rw [e3 m, e3 0]

/-- The needed-column closure of the frozen-supernova catalog does not
depend on the observation epoch. -/
theorem neededSet_frozen (m : ℚ) :
    neededSet (frozenSNCat m) snR = neededSet (frozenSNCat 0) snR := by
  unfold neededSet
  rw [colUniverse_frozen m,
    closeFuel_congr (frozenSNCat m) (frozenSNCat 0) (colDeps_frozen m) _ _]


theorem snInvocation (mjdobs : ℚ) :
    invocationList (frozenSNCat mjdobs) snR = [angularGetter, snparamsGetter mjdobs] := by
  have hset := neededSet_frozen mjdobs
  have m_snra : ("snra" ∈ neededSet (frozenSNCat 0) snR) := by decide
  have m_c : ("c" ∈ neededSet (frozenSNCat 0) snR) := by decide
  have pA : producerGid (frozenSNCat mjdobs) "snra" = some 1 := rfl
  have pS : producerGid (frozenSNCat mjdobs) "c" = some 2 := rfl
  have hA : neededBy (frozenSNCat mjdobs) snR angularGetter = true := by
    unfold neededBy
    simp only [hset]
    simp [angularGetter, pA, m_snra]
  have hS : neededBy (frozenSNCat mjdobs) snR (snparamsGetter mjdobs) = true := by
    unfold neededBy
    simp only [hset]
    simp [snparamsGetter, pS, m_c]
  show List.filter (neededBy (frozenSNCat mjdobs) snR) [angularGetter, snparamsGetter mjdobs]
      = [angularGetter, snparamsGetter mjdobs]
  rw [List.filter_cons_of_pos hA, List.filter_cons_of_pos hS, List.filter_nil]

theorem snNativeInit (mjdobs : ℚ) (ids ra dec zr tc tx1 tx0 tt0 : List ℚ) :
    nativeInit (frozenSNCat mjdobs) snR (snData ids ra dec zr tc tx1 tx0 tt0)
      = snData ids ra dec zr tc tx1 tx0 tt0 := by
  have hset := neededSet_frozen mjdobs
  have m_snid : ("snid" ∈ neededSet (frozenSNCat 0) snR) := by decide
  have m_ra : ("raJ2000" ∈ neededSet (frozenSNCat 0) snR) := by decide
  have m_dec : ("decJ2000" ∈ neededSet (frozenSNCat 0) snR) := by decide
  have m_zr : ("Tredshift" ∈ neededSet (frozenSNCat 0) snR) := by decide
  have m_tc : ("Tc" ∈ neededSet (frozenSNCat 0) snR) := by decide
  have m_tx1 : ("Tx1" ∈ neededSet (frozenSNCat 0) snR) := by decide
  have m_tx0 : ("Tx0" ∈ neededSet (frozenSNCat 0) snR) := by decide
  have m_tt0 : ("Tt0" ∈ neededSet (frozenSNCat 0) snR) := by decide
  have f_snid : findGetter (frozenSNCat mjdobs) "snid" = none := rfl
  have f_ra : findGetter (frozenSNCat mjdobs) "raJ2000" = none := rfl
  have f_dec : findGetter (frozenSNCat mjdobs) "decJ2000" = none := rfl
  have f_zr : findGetter (frozenSNCat mjdobs) "Tredshift" = none := rfl
  have f_tc : findGetter (frozenSNCat mjdobs) "Tc" = none := rfl
  have f_tx1 : findGetter (frozenSNCat mjdobs) "Tx1" = none := rfl
  have f_tx0 : findGetter (frozenSNCat mjdobs) "Tx0" = none := rfl
  have f_tt0 : findGetter (frozenSNCat mjdobs) "Tt0" = none := rfl
  show List.filter _ [("snid", ids.map some), ("raJ2000", ra.map some),
    ("decJ2000", dec.map some), ("Tredshift", zr.map some), ("Tc", tc.map some),
    ("Tx1", tx1.map some), ("Tx0", tx0.map some), ("Tt0", tt0.map some)] = _
  rw [List.filter_cons_of_pos (by simp [hset, m_snid, f_snid]),
    List.filter_cons_of_pos (by simp [hset, m_ra, f_ra]),
    List.filter_cons_of_pos (by simp [hset, m_dec, f_dec]),
    List.filter_cons_of_pos (by simp [hset, m_zr, f_zr]),
    List.filter_cons_of_pos (by simp [hset, m_tc, f_tc]),
    List.filter_cons_of_pos (by simp [hset, m_tx1, f_tx1]),
    List.filter_cons_of_pos (by simp [hset, m_tx0, f_tx0]),
    List.filter_cons_of_pos (by simp [hset, m_tt0, f_tt0]),
    List.filter_nil]
  rfl

theorem snMap_eval (mjdobs : ℚ) (ids ra dec zr tc tx1 tx0 tt0 : List ℚ) :
    (evalChunkMap (frozenSNCat mjdobs) snR (snData ids ra dec zr tc tx1 tx0 tt0)
        initState).2 = snMap mjdobs ids ra dec zr tc tx1 tx0 tt0 := by
  unfold evalChunkMap
  rw [snInvocation mjdobs, snNativeInit mjdobs ids ra dec zr tc tx1 tx0 tt0]
  rfl

/-- C5: evaluating the frozen-supernova catalog on a chunk, the written
output contains exactly the rows whose `t0` (shifted by the survey start
date by `get_snparams` and set to NaN outside the visibility window) is
within `maxTimeSNVisible` of the observation epoch — rows with a NaN in
a `cannot_be_null` column are dropped entirely, all other rows are
written with their computed columns, in original encounter order. -/
theorem claim_C5_cannot_be_null_filter (mjdobs : ℚ)
    (ids ra dec zr tc tx1 tx0 tt0 : List ℚ) (n : Nat)
    (hids : ids.length = n) (hra : ra.length = n) (hdec : dec.length = n)
    (hzr : zr.length = n) (htc : tc.length = n) (htx1 : tx1.length = n)
    (htx0 : tx0.length = n) (htt0 : tt0.length = n) :
    (evalChunk (frozenSNCat mjdobs) snR n (snData ids ra dec zr tc tx1 tx0 tt0)
        initState).1 =
      ((List.range n).filter (fun i =>
          decide (|tt0.getD i 0 + surveyStartDate - mjdobs| ≤ maxTimeSNVisible))).map
        (fun i =>
          [some (ids.getD i 0), some (ra.getD i 0), some (dec.getD i 0),
           some (zr.getD i 0), some (tt0.getD i 0 + surveyStartDate),
           some (tc.getD i 0), some (tx1.getD i 0), some (tx0.getD i 0)]) := by
  have h1 : (evalChunk (frozenSNCat mjdobs) snR n (snData ids ra dec zr tc tx1 tx0 tt0)
      initState).1 = assembleRows (frozenSNCat mjdobs) snR
        (snMap mjdobs ids ra dec zr tc tx1 tx0 tt0) n := by
    show assembleRows (frozenSNCat mjdobs) snR
        (evalChunkMap (frozenSNCat mjdobs) snR (snData ids ra dec zr tc tx1 tx0 tt0)
          initState).2 n = _
    rw [snMap_eval]
  rw [h1]
  have v_snid : ∀ i, i < n →
      colVal (snMap mjdobs ids ra dec zr tc tx1 tx0 tt0) "snid" i
        = some (ids.getD i 0) := by
    intro i hi
    show (ids.map some).getD i none = _
    exact getD_map_lt some ids i (by omega) none 0
  have v_snra : ∀ i, i < n →
      colVal (snMap mjdobs ids ra dec zr tc tx1 tx0 tt0) "snra" i
        = some (ra.getD i 0) := by
    intro i hi
    show (ra.map some).getD i none = _
    exact getD_map_lt some ra i (by omega) none 0
  have v_sndec : ∀ i, i < n →
      colVal (snMap mjdobs ids ra dec zr tc tx1 tx0 tt0) "sndec" i
        = some (dec.getD i 0) := by
    intro i hi
    show (dec.map some).getD i none = _
    exact getD_map_lt some dec i (by omega) none 0
  have v_z : ∀ i, i < n →
      colVal (snMap mjdobs ids ra dec zr tc tx1 tx0 tt0) "z" i
        = some (zr.getD i 0) := by
    intro i hi
    show (zr.map some).getD i none = _
    exact getD_map_lt some zr i (by omega) none 0
  have v_c : ∀ i, i < n →
      colVal (snMap mjdobs ids ra dec zr tc tx1 tx0 tt0) "c" i
        = some (tc.getD i 0) := by
    intro i hi
    show (tc.map some).getD i none = _
    exact getD_map_lt some tc i (by omega) none 0
  have v_x1 : ∀ i, i < n →
      colVal (snMap mjdobs ids ra dec zr tc tx1 tx0 tt0) "x1" i
        = some (tx1.getD i 0) := by
    intro i hi
    show (tx1.map some).getD i none = _
    exact getD_map_lt some tx1 i (by omega) none 0
  have v_x0 : ∀ i, i < n →
      colVal (snMap mjdobs ids ra dec zr tc tx1 tx0 tt0) "x0" i
        = some (tx0.getD i 0) := by
    intro i hi
    show (tx0.map some).getD i none = _
    exact getD_map_lt some tx0 i (by omega) none 0
  have v_t0 : ∀ i, i < n →
      colVal (snMap mjdobs ids ra dec zr tc tx1 tx0 tt0) "t0" i =
        frozenT0 mjdobs (some (tt0.getD i 0)) := by
    intro i hi
    show ((tt0.map some).map (frozenT0 mjdobs)).getD i none = _
    rw [List.map_map]
    exact getD_map_lt (frozenT0 mjdobs ∘ some) tt0 i (by omega) none 0
  unfold assembleRows
  have hOK : ∀ i ∈ List.range n,
      rowOK (frozenSNCat mjdobs) (snMap mjdobs ids ra dec zr tc tx1 tx0 tt0) i =
        decide (|tt0.getD i 0 + surveyStartDate - mjdobs| ≤ maxTimeSNVisible) := by
    intro i hi
    have hin : i < n := List.mem_range.mp hi
    show (["x0", "z", "t0"].all
        (fun c => (colVal (snMap mjdobs ids ra dec zr tc tx1 tx0 tt0) c i).isSome)) = _
    rw [List.all_cons, List.all_cons, List.all_cons, List.all_nil]
    rw [v_x0 i hin, v_z i hin, v_t0 i hin]
    simp only [frozenT0, Option.some_bind, Option.isSome_some, Bool.true_and,
      Bool.and_true]
    by_cases hc : maxTimeSNVisible < |tt0.getD i 0 + surveyStartDate - mjdobs|
    · rw [if_pos hc, decide_eq_false (not_le.mpr hc)]
      rfl
    · rw [if_neg hc, decide_eq_true (not_lt.mp hc)]
      rfl
  rw [List.filter_congr hOK]
  refine List.map_congr_left ?_
  intro i hi
  have hin : i < n := List.mem_range.mp (List.mem_of_mem_filter hi)
  have hle : |tt0.getD i 0 + surveyStartDate - mjdobs| ≤ maxTimeSNVisible := by
    have := List.of_mem_filter hi
    simpa using this
  show snR.map (fun c => colVal (snMap mjdobs ids ra dec zr tc tx1 tx0 tt0) c i) = _
  simp only [snR, List.map_cons, List.map_nil]
  rw [v_snid i hin, v_snra i hin, v_sndec i hin, v_z i hin, v_t0 i hin,
    v_c i hin, v_x1 i hin, v_x0 i hin]
  simp only [frozenT0, Option.some_bind]
  rw [if_neg (not_lt.mpr hle)]

/-- Witness for C5: a three-row chunk observed at epoch 59600 where the
second supernova's `t0` (59780) lies outside the visibility window, so
exactly that row is dropped. -/
theorem claim_C5_cannot_be_null_filter_witness :
    (([(1 : ℚ), 2, 3]).length = 3 ∧ ([(10 : ℚ), 20, 30]).length = 3 ∧
      ([(40 : ℚ), 50, 60]).length = 3 ∧ ([(1 / 2 : ℚ), 1 / 4, 3 / 4]).length = 3 ∧
      ([(5 : ℚ), 6, 7]).length = 3 ∧ ([(8 : ℚ), 9, 10]).length = 3 ∧
      ([(11 : ℚ), 12, 13]).length = 3 ∧ ([(10 : ℚ), 200, 30]).length = 3) ∧
    (evalChunk (frozenSNCat 59600) snR 3
        (snData [1, 2, 3] [10, 20, 30] [40, 50, 60] [1 / 2, 1 / 4, 3 / 4]
          [5, 6, 7] [8, 9, 10] [11, 12, 13] [10, 200, 30]) initState).1 =
      ((List.range 3).filter (fun i =>
          decide (|([(10 : ℚ), 200, 30]).getD i 0 + surveyStartDate - 59600| ≤
            maxTimeSNVisible))).map
        (fun i =>
          [some (([(1 : ℚ), 2, 3]).getD i 0), some (([(10 : ℚ), 20, 30]).getD i 0),
           some (([(40 : ℚ), 50, 60]).getD i 0),
           some (([(1 / 2 : ℚ), 1 / 4, 3 / 4]).getD i 0),
           some (([(10 : ℚ), 200, 30]).getD i 0 + surveyStartDate),
           some (([(5 : ℚ), 6, 7]).getD i 0), some (([(8 : ℚ), 9, 10]).getD i 0),
           some (([(11 : ℚ), 12, 13]).getD i 0)]) :=
  ⟨⟨rfl, rfl, rfl, rfl, rfl, rfl, rfl, rfl⟩,
    claim_C5_cannot_be_null_filter 59600 [1, 2, 3] [10, 20, 30] [40, 50, 60]
      [1 / 2, 1 / 4, 3 / 4] [5, 6, 7] [8, 9, 10] [11, 12, 13] [10, 200, 30] 3
      rfl rfl rfl rfl rfl rfl rfl rfl⟩

/-! ## Claim C4

A missing m5 depth for a requested uncertainty column raises the
descriptive KeyError, propagated to the caller. -/

/-- C4: if an uncertainty column is requested for a band whose m5 value
is absent from the observation metadata, catalog evaluation fails with
the KeyError whose message contains the literal diagnostic substring
about the missing m5 configuration, and that error is what the caller
receives — no retry, no default value. -/
theorem claim_C4_missing_m5_error (sigma : ℚ → ℚ → ℚ) (m5 : List (Col × ℚ))
    (mags : List (Val ℚ)) (bands : List Col) (band : Col)
    (hmem : band ∈ bands) (habs : lookupA m5 band = none) :
    ∃ e, uncertaintyColumns sigma m5 mags bands = Except.error e ∧
      ∃ pre post, e = pre ++ m5MissingDiagnostic ++ post := by
  induction bands with
  | nil => simp at hmem
  | cons b bs ih =>
      by_cases hb : lookupA m5 b = none
      · refine ⟨m5MissingMessage b, ?_,
          "Key " ++ b ++ " not found in ObservationMetaData.m5. ", "", ?_⟩
        · simp [uncertaintyColumns, magUncertaintyGetter, hb]
        · simp [m5MissingMessage]
      · obtain ⟨depth, hd⟩ := Option.ne_none_iff_exists'.mp hb
        have hbs : band ∈ bs := by
          rcases List.mem_cons.mp hmem with h | h
          · rw [h] at habs
            exact absurd habs hb
          · exact h
        obtain ⟨e, he, pre, post, hdecomp⟩ := ih hbs
        exact ⟨e, by simp [uncertaintyColumns, magUncertaintyGetter, hd, he], pre,
          post, hdecomp⟩

/-- Witness for C4: the observation metadata of `test_m5_exceptions`
(m5 defined for u, g, r, z, y only) with all six uncertainty bands
requested: asking for the i band fails with the diagnostic. -/
theorem claim_C4_missing_m5_error_witness :
    ("i" ∈ ["u", "g", "r", "i", "z", "y"] ∧
      lookupA [("u", (24 : ℚ)), ("g", 24), ("r", 24), ("z", 24), ("y", 24)] "i"
        = none) ∧
    ∃ e, uncertaintyColumns (fun m d => m - d)
        [("u", (24 : ℚ)), ("g", 24), ("r", 24), ("z", 24), ("y", 24)]
        [some 20, some 21] ["u", "g", "r", "i", "z", "y"] = Except.error e ∧
      ∃ pre post, e = pre ++ m5MissingDiagnostic ++ post :=
  ⟨⟨by decide, by decide⟩,
    claim_C4_missing_m5_error (fun m d => m - d)
      [("u", (24 : ℚ)), ("g", 24), ("r", 24), ("z", 24), ("y", 24)]
      [some 20, some 21] ["u", "g", "r", "i", "z", "y"] "i" (by decide) (by decide)⟩

/-! ## Claim C6

Registering a second producer under an already-claimed identifier. -/

/-- Counterexample to C6 as stated: registering a second class under the
already-claimed object id `msstars` is not a fatal error — the
registration completes, and the registry afterwards resolves `msstars`
to the later class (the earlier binding is overridden), with only a
warning recorded. -/
theorem claim_C6_counterexample :
    (lookupA (registerObj (registerObj ⟨[], []⟩ "msstars" "StarObjA")
        "msstars" "StarObjB").entries "msstars" = some "StarObjB") ∧
    (lookupA (registerObj (registerObj ⟨[], []⟩ "msstars" "StarObjA")
        "msstars" "StarObjB").entries "msstars" ≠ some "StarObjA") ∧
    (registerObj (registerObj ⟨[], []⟩ "msstars" "StarObjA")
        "msstars" "StarObjB").warnings
      = ["duplicate object id msstars specified"] := by
  refine ⟨rfl, ?_, rfl⟩
  decide

/-- C6 amended: registering a producer under an already-claimed object
id is diagnosed, not fatal: a warning naming the duplicate id is
appended, the registration completes, and the later registration
overrides the earlier one in the registry. -/
theorem claim_C6_duplicate_warns_overrides (st : Registry) (objid cls : String)
    (hclaimed : (lookupA st.entries objid).isSome) :
    (registerObj st objid cls).warnings =
      st.warnings ++ ["duplicate object id " ++ objid ++ " specified"] ∧
    lookupA (registerObj st objid cls).entries objid = some cls := by
  constructor
  · simp [registerObj, hclaimed]
  · show lookupA ((objid, cls) :: st.entries) objid = some cls
    exact lookupA_cons_pos _ _ _ rfl

/-- Witness for C6 amended: re-registering `msstars`. -/
theorem claim_C6_duplicate_warns_overrides_witness :
    ((lookupA (Registry.mk [("msstars", "StarObjA")] []).entries "msstars").isSome) ∧
    ((registerObj (Registry.mk [("msstars", "StarObjA")] []) "msstars"
        "StarObjB").warnings = [] ++ ["duplicate object id " ++ "msstars" ++ " specified"] ∧
      lookupA (registerObj (Registry.mk [("msstars", "StarObjA")] []) "msstars"
        "StarObjB").entries "msstars" = some "StarObjB") :=
  ⟨by decide,
    claim_C6_duplicate_warns_overrides (Registry.mk [("msstars", "StarObjA")] [])
      "msstars" "StarObjB" (by decide)⟩

/-! ## Claim C7

Chunked data-source iteration. -/

/-- C7 (code bug): without a `chunksize`, `query_columns` indeed returns
the complete post-processed result list in one call; but with a
`chunksize` the constructed `ChunkIterator` raises
`NameError: name dbobj is not defined` in its `__init__` (the parameter
is misnamed `exec_query` while the body reads `dbobj` and `query`), so
the chunked iteration promised by the docstring never starts, let alone
terminates with `StopIteration` on an empty fetch. -/
theorem claim_C7_chunk_iterator_init_bug (rows : List (List ℚ)) (k : Nat) :
    query_columns_model rows none = Except.ok rows ∧
    query_columns_model rows (some k) =
      Except.error "NameError: name dbobj is not defined" :=
  ⟨rfl, rfl⟩

/-! ## Claim C9

`sum_magnitudes` and its treatment of NaN components. -/

theorem componentFlux_nonneg (m0 : ℝ) (v : Val ℝ) : 0 ≤ componentFlux m0 v := by
  cases v with
  | none => simp [componentFlux]
  | some m =>
      simp only [componentFlux]
      exact le_of_lt (Real.rpow_pos_of_pos (by norm_num) _)

theorem componentFlux_eq_zero_iff (m0 : ℝ) (v : Val ℝ) :
    componentFlux m0 v = 0 ↔ v = none := by
  cases v with
  | none => simp [componentFlux]
  | some m =>
      simp only [componentFlux]
      constructor
      · intro h
        exact absurd h (ne_of_gt (Real.rpow_pos_of_pos (by norm_num) _))
      · intro h
        exact absurd h (by simp)

theorem totalFlux_eq_zero_iff (m0 : ℝ) (b d a : Val ℝ) :
    componentFlux m0 b + componentFlux m0 d + componentFlux m0 a = 0 ↔
      (b = none ∧ d = none ∧ a = none) := by
  rw [add_eq_zero_iff_of_nonneg
      (add_nonneg (componentFlux_nonneg m0 b) (componentFlux_nonneg m0 d))
      (componentFlux_nonneg m0 a),
    add_eq_zero_iff_of_nonneg (componentFlux_nonneg m0 b) (componentFlux_nonneg m0 d),
    componentFlux_eq_zero_iff, componentFlux_eq_zero_iff, componentFlux_eq_zero_iff]
  tauto

/-- C9: `sum_magnitudes` treats a NaN component as contributing zero
flux; whenever at least one component is live the result is the
magnitude of the summed fluxes, `-2.5 log10 (flux sum) + m0`; the result
is NaN exactly when every supplied component is NaN; and the array form
acts elementwise like the scalar form. -/
theorem claim_C9_sum_magnitudes (m0 : ℝ) (b d a : Val ℝ) :
    (componentFlux m0 none = 0) ∧
    (sum_magnitudes m0 b d a = none ↔ (b = none ∧ d = none ∧ a = none)) ∧
    (¬(b = none ∧ d = none ∧ a = none) →
      sum_magnitudes m0 b d a = some (-(5 / 2 : ℝ) * Real.logb 10
        (componentFlux m0 b + componentFlux m0 d + componentFlux m0 a) + m0)) ∧
    (∀ lb ld la, sum_magnitudes_list m0 lb ld la
      = List.zipWith3 (sum_magnitudes m0) lb ld la) := by
  refine ⟨rfl, ?_, ?_, fun lb ld la => rfl⟩
  · unfold sum_magnitudes
    by_cases h : componentFlux m0 b + componentFlux m0 d + componentFlux m0 a = 0
    · rw [if_pos h]
      simp [(totalFlux_eq_zero_iff m0 b d a).mp h]
    · rw [if_neg h]
      simp only [reduceCtorEq, false_iff]
      intro hall
      exact h ((totalFlux_eq_zero_iff m0 b d a).mpr hall)
  · intro hlive
    unfold sum_magnitudes
    rw [if_neg (fun h0 => hlive ((totalFlux_eq_zero_iff m0 b d a).mp h0))]

/-! ## Claim C10

The cosmology mixin is a uniform per-row magnitude shift. -/

theorem componentFlux_shift (m0 μ : ℝ) (v : Val ℝ) :
    componentFlux m0 (shiftMag μ v)
      = (10 : ℝ) ^ (-(2 / 5 : ℝ) * μ) * componentFlux m0 v := by
  cases v with
  | none => simp [shiftMag, componentFlux]
  | some m =>
      simp only [shiftMag, Option.map_some', componentFlux]
      rw [← Real.rpow_add (by norm_num)]
      congr 1
      ring

theorem sum_magnitudes_shift (m0 μ : ℝ) (b d a : Val ℝ) :
    sum_magnitudes m0 (shiftMag μ b) (shiftMag μ d) (shiftMag μ a)
      = shiftMag μ (sum_magnitudes m0 b d a) := by
  have hcpos : (0 : ℝ) < (10 : ℝ) ^ (-(2 / 5 : ℝ) * μ) :=
    Real.rpow_pos_of_pos (by norm_num) _
  unfold sum_magnitudes
  rw [componentFlux_shift, componentFlux_shift, componentFlux_shift]
  have htot : (10 : ℝ) ^ (-(2 / 5 : ℝ) * μ) * componentFlux m0 b +
      (10 : ℝ) ^ (-(2 / 5 : ℝ) * μ) * componentFlux m0 d +
      (10 : ℝ) ^ (-(2 / 5 : ℝ) * μ) * componentFlux m0 a
      = (10 : ℝ) ^ (-(2 / 5 : ℝ) * μ) *
        (componentFlux m0 b + componentFlux m0 d + componentFlux m0 a) := by
    ring
  rw [htot]
  by_cases h0 : componentFlux m0 b + componentFlux m0 d + componentFlux m0 a = 0
  · rw [if_pos h0, if_pos (by rw [h0]; ring)]
    rfl
  · rw [if_neg h0, if_neg (mul_ne_zero (ne_of_gt hcpos) h0)]
    simp only [shiftMag, Option.map_some']
    congr 1
    rw [Real.logb_mul (ne_of_gt hcpos) h0,
      Real.logb_rpow (by norm_num) (by norm_num)]
    ring

theorem sum_magnitudes_list_shift (m0 μ : ℝ) :
    ∀ (lb ld la : List (Val ℝ)),
      sum_magnitudes_list m0 (lb.map (shiftMag μ)) (ld.map (shiftMag μ))
        (la.map (shiftMag μ))
      = (sum_magnitudes_list m0 lb ld la).map (shiftMag μ) := by
  intro lb
  induction lb with
  | nil => intro ld la; rfl
  | cons x lb ih =>
      intro ld la
      cases ld with
      | nil => rfl
      | cons y ld =>
          cases la with
          | nil => rfl
          | cons z la =>
              show sum_magnitudes m0 (shiftMag μ x) (shiftMag μ y) (shiftMag μ z) ::
                  sum_magnitudes_list m0 (lb.map (shiftMag μ)) (ld.map (shiftMag μ))
                    (la.map (shiftMag μ))
                = _
              rw [ih ld la, sum_magnitudes_shift]
              rfl

theorem map_shiftMag_zero (l : List (Val ℝ)) : l.map (shiftMag 0) = l := by
  induction l with
  | nil => rfl
  | cons v l ih =>
      simp only [List.map_cons, ih]
      congr 1
      cases v with
      | none => rfl
      | some m => simp [shiftMag]

/-- C10: the cosmology-enabled galaxy catalog row relates to the control
catalog (the same catalog with `cosmologicalDistanceModulus` fixed to
zero, as `absoluteGalaxyCatalog` does) as a uniform per-row magnitude
shift: every component magnitude column and the total magnitude column
equal the control column shifted by `distanceModulus(redshift)`; the
galid and redshift columns agree; and the two modulus columns read
`dm z` and `0`. -/
theorem claim_C10_cosmology_uniform_shift (dm : ℝ → ℝ) (m0 gid z : ℝ)
    (baseB baseD baseA : List (Val ℝ)) :
    (galaxyCatalogRow m0 gid z (dm z) baseB baseD baseA).galid
      = (galaxyCatalogRow m0 gid z 0 baseB baseD baseA).galid ∧
    (galaxyCatalogRow m0 gid z (dm z) baseB baseD baseA).redshift
      = (galaxyCatalogRow m0 gid z 0 baseB baseD baseA).redshift ∧
    (galaxyCatalogRow m0 gid z (dm z) baseB baseD baseA).modulus = dm z ∧
    (galaxyCatalogRow m0 gid z 0 baseB baseD baseA).modulus = 0 ∧
    (galaxyCatalogRow m0 gid z (dm z) baseB baseD baseA).bulgeMags
      = ((galaxyCatalogRow m0 gid z 0 baseB baseD baseA).bulgeMags).map
          (shiftMag (dm z)) ∧
    (galaxyCatalogRow m0 gid z (dm z) baseB baseD baseA).diskMags
      = ((galaxyCatalogRow m0 gid z 0 baseB baseD baseA).diskMags).map
          (shiftMag (dm z)) ∧
    (galaxyCatalogRow m0 gid z (dm z) baseB baseD baseA).agnMags
      = ((galaxyCatalogRow m0 gid z 0 baseB baseD baseA).agnMags).map
          (shiftMag (dm z)) ∧
    (galaxyCatalogRow m0 gid z (dm z) baseB baseD baseA).totalMags
      = ((galaxyCatalogRow m0 gid z 0 baseB baseD baseA).totalMags).map
          (shiftMag (dm z)) := by
  unfold galaxyCatalogRow
  refine ⟨rfl, rfl, rfl, rfl, ?_, ?_, ?_, ?_⟩
  · show List.map (shiftMag (dm z)) baseB
        = List.map (shiftMag (dm z)) (List.map (shiftMag 0) baseB)
    rw [map_shiftMag_zero]
  · show List.map (shiftMag (dm z)) baseD
        = List.map (shiftMag (dm z)) (List.map (shiftMag 0) baseD)
    rw [map_shiftMag_zero]
  · show List.map (shiftMag (dm z)) baseA
        = List.map (shiftMag (dm z)) (List.map (shiftMag 0) baseA)
    rw [map_shiftMag_zero]
  · show sum_magnitudes_list m0 (List.map (shiftMag (dm z)) baseB)
        (List.map (shiftMag (dm z)) baseD) (List.map (shiftMag (dm z)) baseA)
      = List.map (shiftMag (dm z)) (sum_magnitudes_list m0
          (List.map (shiftMag 0) baseB) (List.map (shiftMag 0) baseD)
          (List.map (shiftMag 0) baseA))
    rw [map_shiftMag_zero, map_shiftMag_zero, map_shiftMag_zero,
      ← sum_magnitudes_list_shift]

end CatSim
